import Mathlib

/-!
Verification of the FindShop-vue streaming/connection core.

This file gives a shallow embedding of the two subsystems of the repository
with real behaviour:

* the WebSocket connection manager (`src/src/utils/websocket.js`, with its
  configuration constants from the WebSocket config module), and
* the realtime streaming feeder and HTTP chunk reader
  (`postStreamRealtime` / `postStream` in the HTTP utility module),

together with the callback registry (`on`/`off`/`emit`) that the manager
uses for event dispatch.  Operations are translated statement by statement
from the JavaScript source; event-driven code becomes a step function over
an explicit state record, and the environment (network arrival, writer
completion, timers) is represented by an event alphabet fed to that step
function.
-/

namespace FindShop

/-! ### Configuration constants (WebSocket config module, `WS_OPTIONS`) -/

def autoReconnect : Bool := true

def reconnectInterval : Nat := 3000

def reconnectAttempts : Nat := 5

def heartbeatEnabled : Bool := true

def heartbeatInterval : Nat := 30000

/-! ### WebSocket manager (`src/src/utils/websocket.js`)

State of the `WebSocketManager` singleton.  `wsState` is `none` when
`this.ws` is `null`, otherwise the `readyState` of the current transport.
`transportsCreated` / `closedTransports` count `new WebSocket(...)`
constructions and transport close events, so that
`transportsCreated - closedTransports` is the number of live transports.
`scheduledReconnects` is the (monotone) log of the delays passed to
`setTimeout` by `attemptReconnect`, and `published` is the log of events
emitted through the callback registry plus the `ping` frames sent by the
heartbeat timer. -/

inductive ReadyState where
  | CONNECTING
  | OPEN
  | CLOSING
  | CLOSED
deriving DecidableEq, Repr

inductive WOut where
  | openEv
  | closeEv
  | errorEv
  | reconnectFailed
  | ping (timestamp : Nat)
deriving DecidableEq, Repr

structure WSM where
  wsState : Option ReadyState := none
  transportsCreated : Nat := 0
  closedTransports : Nat := 0
  reconnectCount : Nat := 0
  isManualClose : Bool := false
  heartbeat : Option Nat := none
  scheduledReconnects : List Nat := []
  published : List WOut := []
deriving DecidableEq, Repr

def winit : WSM := {}

/-- `connect(path)` (websocket.js lines 19-31): short-circuit (resolve
immediately, no new transport) when `this.ws && this.ws.readyState === OPEN`;
otherwise clear the manual-close flag and construct a fresh `WebSocket`,
which starts in the `CONNECTING` ready state.  The previous transport object,
if any, is neither closed nor kept. -/
def connectStep (s : WSM) : WSM :=
  if s.wsState = some ReadyState.OPEN then s
  else
    { s with isManualClose := false
             wsState := some ReadyState.CONNECTING
             transportsCreated := s.transportsCreated + 1 }

/-- `startHeartbeat` (websocket.js lines 95-106) in the single-slot view:
when the heartbeat option is enabled, record an interval timer with period
`heartbeatInterval` in the `this.heartbeatTimer` field.  The source's
assignment overwrites the field without clearing a previously installed
interval; that leak, irrelevant to the connect/reconnect claims served by
this view, is modelled faithfully by `mStartHeartbeat` below. -/
def startHeartbeat (s : WSM) : WSM :=
  if heartbeatEnabled then { s with heartbeat := some heartbeatInterval } else s

/-- `stopHeartbeat` (websocket.js lines 108-113). -/
def stopHeartbeat (s : WSM) : WSM :=
  { s with heartbeat := none }

/-- `attemptReconnect` (websocket.js lines 115-128): at or above the attempt
cap, publish `reconnectFailed` and schedule nothing; below the cap, increment
the counter and schedule exactly one reconnect after `reconnectInterval`. -/
def attemptReconnect (s : WSM) : WSM :=
  if reconnectAttempts ≤ s.reconnectCount then
    { s with published := s.published ++ [WOut.reconnectFailed] }
  else
    { s with reconnectCount := s.reconnectCount + 1
             scheduledReconnects := s.scheduledReconnects ++ [reconnectInterval] }

/-- The `onopen` handler (websocket.js lines 32-38): reset the reconnect
counter, start the heartbeat, publish `open`, resolve the pending promise. -/
def handleOpen (s : WSM) : WSM :=
  let s := { s with reconnectCount := 0 }
  let s := startHeartbeat s
  { s with wsState := some ReadyState.OPEN, published := s.published ++ [WOut.openEv] }

/-- The `onclose` handler (websocket.js lines 50-58): stop the heartbeat,
publish `close`, and — unless the close was manually requested and provided
auto-reconnect is on — run `attemptReconnect`.  The transport that fired the
event is now closed. -/
def handleClose (s : WSM) : WSM :=
  let s := stopHeartbeat s
  let s := { s with published := s.published ++ [WOut.closeEv]
                    closedTransports := s.closedTransports + 1
                    wsState := if s.wsState = none then none else some ReadyState.CLOSED }
  if !s.isManualClose && autoReconnect then attemptReconnect s else s

/-- `close()` (websocket.js lines 130-142): set the manual-close flag, stop
the heartbeat, clear any pending reconnect timer, close and drop the
transport reference (`this.ws = null`). -/
def closeCallStep (s : WSM) : WSM :=
  let s := { s with isManualClose := true }
  let s := stopHeartbeat s
  { s with wsState := none }

/-- One firing of the heartbeat interval callback (websocket.js lines
98-105): sends a `ping`-tagged message carrying `Date.now()` only while the
transport is open. -/
def heartbeatTick (now : Nat) (s : WSM) : WSM :=
  if s.wsState = some ReadyState.OPEN then
    { s with published := s.published ++ [WOut.ping now] }
  else s

/-- Environment events driving the manager: an explicit (or timer-fired)
`connect()` call, the transport callbacks `onopen` / `onclose` / `onerror`
of the current transport, a manual `close()` call, and a firing of the
heartbeat interval timer at wall-clock time `now`. -/
inductive WEv where
  | connectCall
  | openEvt
  | closeEvt
  | errorEvt
  | closeCall
  | hbTick (now : Nat)
deriving DecidableEq, Repr

/-- Single-transport step, used for the connect short-circuit and the
reconnect bookkeeping: events are routed to the handler bodies as they fire
for the *current* transport.  Interleavings in which a superseded
transport's handlers fire (reachable by calling `connect()` twice while
still connecting) are modelled faithfully by `mstep` below; the heartbeat
claims are settled there. -/
def wstep (s : WSM) : WEv → WSM
  | WEv.connectCall => connectStep s
  | WEv.openEvt =>
      if s.wsState = some ReadyState.CONNECTING then handleOpen s else s
  | WEv.closeEvt =>
      if s.closedTransports < s.transportsCreated then handleClose s else s
  | WEv.errorEvt =>
      if s.wsState = none then s
      else { s with published := s.published ++ [WOut.errorEv] }
  | WEv.closeCall => closeCallStep s
  | WEv.hbTick now => if s.heartbeat = none then s else heartbeatTick now s

def wrun (s : WSM) (tr : List WEv) : WSM :=
  tr.foldl wstep s

/-! ### WebSocket manager, multi-transport view

`wstep` above routes events of the *current* transport only, which is
sufficient for the connect short-circuit and reconnect bookkeeping.  The
heartbeat claims need more: in the source, `onopen`/`onclose` handlers are
attached per `WebSocket` object and their bodies run unconditionally when
*that* object's events fire, even after `this.ws` has been replaced by a
later `connect()` call (reachable by calling `connect()` twice while still
connecting); and `startHeartbeat` assigns
`this.heartbeatTimer = setInterval(...)` *without clearing* a previously
installed interval, which is thereby leaked — it keeps running, unreachable
to `stopHeartbeat`.  This model tracks every created transport and every
running interval timer.

`transports` holds each created transport's ready state, indexed by
creation order; `current` is `this.ws` (`none` = `null`); `heartbeatSlot`
is the `this.heartbeatTimer` field (the id of the interval it references);
`intervals` lists every interval timer actually running, as `(id, period)`
pairs — leaked ones included; `nextTimer` supplies fresh timer ids. -/

structure MWS where
  transports : List ReadyState := []
  current : Option Nat := none
  heartbeatSlot : Option Nat := none
  intervals : List (Nat × Nat) := []
  nextTimer : Nat := 0
  reconnectCount : Nat := 0
  isManualClose : Bool := false
  published : List WOut := []
deriving DecidableEq, Repr

def minit : MWS := {}

/-- `this.ws && this.ws.readyState`: the ready state of the current
transport, if any. -/
def currentState (s : MWS) : Option ReadyState :=
  match s.current with
  | none => none
  | some i => s.transports[i]?

/-- `startHeartbeat` (websocket.js lines 95-106), faithful to the
assignment `this.heartbeatTimer = setInterval(..., heartbeatInterval)`: a
new interval starts running and the field now references it; an interval
the field previously referenced is *not* cleared — it stays in
`intervals`, leaked. -/
def mStartHeartbeat (s : MWS) : MWS :=
  if heartbeatEnabled then
    { s with intervals := s.intervals ++ [(s.nextTimer, heartbeatInterval)]
             heartbeatSlot := some s.nextTimer
             nextTimer := s.nextTimer + 1 }
  else s

/-- `stopHeartbeat` (lines 108-113): `clearInterval` stops only the
interval the field references, then nulls the field; leaked intervals keep
running. -/
def mStopHeartbeat (s : MWS) : MWS :=
  match s.heartbeatSlot with
  | none => s
  | some id =>
      { s with intervals := s.intervals.filter (fun t => t.1 != id)
               heartbeatSlot := none }

/-- `connect()` (lines 19-31) in the multi-transport view: short-circuit
only when the current transport is `OPEN`; otherwise a fresh `WebSocket`
(index `transports.length`) is created and becomes `this.ws`, while the
previous transport keeps running with its handlers attached. -/
def mConnect (s : MWS) : MWS :=
  if currentState s = some ReadyState.OPEN then s
  else
    { s with isManualClose := false
             transports := s.transports ++ [ReadyState.CONNECTING]
             current := some s.transports.length }

/-- The `onopen` body of transport `i` (lines 32-38), which runs whenever
*that* transport opens — also when it is no longer `this.ws`: reset the
reconnect counter, start the heartbeat, publish `open`. -/
def mOpen (i : Nat) (s : MWS) : MWS :=
  let s := { s with transports := s.transports.set i ReadyState.OPEN }
  let s := { s with reconnectCount := 0 }
  let s := mStartHeartbeat s
  { s with published := s.published ++ [WOut.openEv] }

/-- The `onclose` body of transport `i` (lines 50-58), which runs whenever
*that* transport closes — also when it is no longer `this.ws`: stop the
heartbeat, publish `close`, and unless the close was manually requested
run `attemptReconnect` (counter and `reconnectFailed` bookkeeping; the
scheduled retry re-enters as a later `connectCall`). -/
def mClose (i : Nat) (s : MWS) : MWS :=
  let s := { s with transports := s.transports.set i ReadyState.CLOSED }
  let s := mStopHeartbeat s
  let s := { s with published := s.published ++ [WOut.closeEv] }
  if !s.isManualClose && autoReconnect then
    if reconnectAttempts ≤ s.reconnectCount then
      { s with published := s.published ++ [WOut.reconnectFailed] }
    else { s with reconnectCount := s.reconnectCount + 1 }
  else s

/-- `close()` (lines 130-142): set the manual flag, stop the referenced
heartbeat interval, then `ws.close()` (the current transport, if not
already closed, moves to `CLOSING`; its `onclose` fires later) and
`this.ws = null`. -/
def mCloseCall (s : MWS) : MWS :=
  let s := { s with isManualClose := true }
  let s := mStopHeartbeat s
  match s.current with
  | none => s
  | some i =>
      { s with current := none
               transports :=
                 if s.transports[i]? = some ReadyState.CLOSED then s.transports
                 else s.transports.set i ReadyState.CLOSING }

/-- The body of one heartbeat interval callback (lines 98-105): sends the
`ping` message only while the *current* transport is open — a leaked
interval still ticks, but stays silent unless the connection is open. -/
def mTick (now : Nat) (s : MWS) : MWS :=
  if currentState s = some ReadyState.OPEN then
    { s with published := s.published ++ [WOut.ping now] }
  else s

/-- Events of the multi-transport view: a `connect()` call, transport
`i`'s `onopen` / `onclose` (valid only in the ready states from which the
browser fires them), a manual `close()`, and a firing of the running
interval timer `id` at wall-clock time `now`. -/
inductive MEv where
  | connectCall
  | openEvt (i : Nat)
  | closeEvt (i : Nat)
  | closeCall
  | hbTick (id : Nat) (now : Nat)
deriving DecidableEq, Repr

def mstep (s : MWS) : MEv → MWS
  | MEv.connectCall => mConnect s
  | MEv.openEvt i =>
      if s.transports[i]? = some ReadyState.CONNECTING then mOpen i s else s
  | MEv.closeEvt i =>
      match s.transports[i]? with
      | none => s
      | some ReadyState.CLOSED => s
      | some _ => mClose i s
  | MEv.closeCall => mCloseCall s
  | MEv.hbTick id now =>
      if s.intervals.any (fun t => t.1 == id) then mTick now s else s

def mrun (s : MWS) (tr : List MEv) : MWS :=
  tr.foldl mstep s

/-! ### Realtime streaming feeder (`postStreamRealtime`, HTTP utility module)

Chunks are identified by natural numbers (the byte payloads themselves play
no role in the claims; `arrived` records the order in which the read loop
handled them).  `submitted` is the sequence of successful
`sourceBuffer.appendBuffer` calls, `actions` the interleaved log of appends
and `updateend` notifications, `pausedLog` records, per handled chunk,
whether the 50 ms backpressure pause was taken, and `eosCount` counts
`mediaSource.endOfStream()` calls. -/

inductive FAct where
  | app (c : Nat)
  | ue
deriving DecidableEq, Repr

structure Feeder where
  isSourceOpen : Bool := false
  sbExists : Bool := false
  updating : Bool := false
  mediaOpen : Bool := false
  streamEnded : Bool := false
  pending : List Nat := []
  arrived : List Nat := []
  submitted : List Nat := []
  actions : List FAct := []
  pausedLog : List Bool := []
  eosCount : Nat := 0
deriving DecidableEq, Repr

def finit : Feeder := {}

/-- The body of the `while` loop of `flushPendingChunks` (HTTP utility
module lines 220-229): shift the head of `pendingChunks` and append it to
the writer.  On success `updating` becomes true, so the loop exits after one
append; on an `appendBuffer` exception (`thr`) the already-shifted chunk is
lost and the loop breaks. -/
def flushOnce (thr : Bool) (s : Feeder) : Feeder :=
  match s.pending with
  | [] => s
  | c :: rest =>
      if thr then { s with pending := rest }
      else
        { s with pending := rest
                 submitted := s.submitted ++ [c]
                 actions := s.actions ++ [FAct.app c]
                 updating := true }

/-- The trailing end-of-stream check of `flushPendingChunks` (lines
231-239): when the stream has ended, the queue is empty, the writer is idle
and the container is still open, call `mediaSource.endOfStream()`. -/
def flushFinalize (s : Feeder) : Feeder :=
  if s.streamEnded && s.pending.isEmpty && !s.updating && s.mediaOpen then
    { s with eosCount := s.eosCount + 1, mediaOpen := false }
  else s

/-- `flushPendingChunks` (HTTP utility module lines 214-240): early return
when the writer does not exist or is updating; otherwise run the drain loop
and then the end-of-stream check. -/
def flushPendingChunks (thr : Bool) (s : Feeder) : Feeder :=
  if !s.sbExists || s.updating then s
  else flushFinalize (flushOnce thr s)

/-- The submit-or-queue branch for one chunk (`postStreamRealtime` lines
331-342): append directly when the writer is idle (an exception queues the
chunk instead), otherwise queue it. -/
def feedOne (c : Nat) (thr : Bool) (s : Feeder) : Feeder :=
  if !s.updating then
    if thr then { s with pending := s.pending ++ [c] }
    else
      { s with submitted := s.submitted ++ [c]
               actions := s.actions ++ [FAct.app c]
               updating := true }
  else { s with pending := s.pending ++ [c] }

/-- The flow-control check (`postStreamRealtime` lines 344-348): pause the
read loop for the fixed 50 ms slice when more than 5 chunks are queued. -/
def pauseCheck (s : Feeder) : Feeder :=
  { s with pausedLog := s.pausedLog ++ [decide (5 < s.pending.length)] }

/-- The body of the read loop for one received chunk (`postStreamRealtime`
lines 320-352): after accounting the chunk (and awaiting
`sourceOpenPromise`), if the source is open and the writer exists, submit or
queue the chunk and then run the flow-control check; when the writer does
not exist, queue the chunk with no backpressure check. -/
def handleChunk (c : Nat) (thr : Bool) (s : Feeder) : Feeder :=
  if s.isSourceOpen && s.sbExists then
    pauseCheck (feedOne c thr { s with arrived := s.arrived ++ [c] })
  else
    { s with arrived := s.arrived ++ [c]
             pending := s.pending ++ [c]
             pausedLog := s.pausedLog ++ [false] }

/-- Environment events driving the feeder: the once-only `sourceopen`
callback (`ok` says whether a `SourceBuffer` was successfully created, see
`addSourceBufferAttempts`), the handling of one received chunk (`thr` is
true when a direct `appendBuffer` call would throw), one `updateend`
notification (`thr` likewise for the append issued by the flush), the
`done` branch of the read loop, and the `catch` branch that ends the stream
on a network error without flushing. -/
inductive FEv where
  | sourceopen (ok : Bool)
  | arrive (c : Nat) (thr : Bool)
  | updateend (thr : Bool)
  | done (thr : Bool)
  | errEnd
deriving DecidableEq, Repr

def fstep (s : Feeder) : FEv → Feeder
  | FEv.sourceopen ok =>
      if s.isSourceOpen then s
      else { s with isSourceOpen := true, mediaOpen := true, sbExists := ok }
  | FEv.arrive c thr =>
      if s.streamEnded || !s.isSourceOpen then s else handleChunk c thr s
  | FEv.updateend thr =>
      if s.updating then
        flushPendingChunks thr { s with updating := false, actions := s.actions ++ [FAct.ue] }
      else s
  | FEv.done thr =>
      if s.streamEnded then s
      else flushPendingChunks thr { s with streamEnded := true }
  | FEv.errEnd =>
      if s.streamEnded then s else { s with streamEnded := true }

def frun (s : Feeder) (tr : List FEv) : Feeder :=
  tr.foldl fstep s

/-- An event carries no `appendBuffer` exception. -/
def noThrow : FEv → Bool
  | FEv.arrive _ thr => !thr
  | FEv.updateend thr => !thr
  | FEv.done thr => !thr
  | _ => true

/-- Alternation check on the append/updateend log: starting from an idle
writer, every append must happen while idle (and makes the writer busy) and
every `updateend` must answer exactly one outstanding append.  Returns the
final idleness, or `none` if two appends overlap. -/
def wfEnd (idle : Bool) : List FAct → Option Bool
  | [] => some idle
  | FAct.app _ :: l => if idle then wfEnd false l else none
  | FAct.ue :: l => if idle then none else wfEnd true l

/-- The `sourceopen` handler (`postStreamRealtime` lines 243-284) as the list
of mime types passed to `mediaSource.addSourceBuffer`, paired with whether a
writer was eventually created.  The first attempt uses
`detectedMimeType || options.responseType || 'audio/mpeg'`; on an exception,
a single retry with the fixed fallback `'audio/mpeg'` happens only when a
mime type was detected and differs from the fallback. -/
def addSourceBufferAttempts (detectedMimeType : Option String)
    (respType : Option String) (firstFails : Bool) (fallbackFails : Bool) :
    List String × Bool :=
  let mimeType := detectedMimeType.getD (respType.getD "audio/mpeg")
  if !firstFails then ([mimeType], true)
  else
    match detectedMimeType with
    | some d =>
        if d = "audio/mpeg" then ([mimeType], false)
        else ([mimeType, "audio/mpeg"], !fallbackFails)
    | none => ([mimeType], false)

/-! ### Playback readiness gate (`postStreamRealtime` lines 364-431)

Buffered media durations are measured in milliseconds (`totalBuffered > 1`
second in the source becomes `bufferFloorMs < totalBufferedMs`). -/

def bufferFloorMs : Nat := 1000

def firstChunkWaitMs : Nat := 1000

def streamTimeoutMs : Nat := 10000

/-- `hasEnoughBuffer` (line 390): at least one second of buffered audio or
one second elapsed since first-chunk observation. -/
def hasEnoughBuffer (totalBufferedMs : Nat) (elapsedTime : Nat) : Bool :=
  bufferFloorMs < totalBufferedMs || firstChunkWaitMs < elapsedTime

structure Gate where
  hasFirstChunk : Bool := false
  checkCleared : Bool := false
  monitoring : Bool := false
  startTime : Nat := 0
  resolved : Bool := false
  rejected : Bool := false
deriving DecidableEq, Repr

def ginit : Gate := {}

/-- Environment events driving the readiness gate: the read loop handling a
chunk at wall-clock time `t` (sets `hasFirstChunk`), one 5 ms tick of the
`checkFirstChunk` interval, one invocation of `tryStartPlayback` (reading the
current time, whether the `sourceBuffer` exists and the buffered duration),
and the firing of the `streamTimeoutMs` timeout. -/
inductive GEv where
  | chunk (t : Nat)
  | observe (t : Nat)
  | poll (t : Nat) (sbExists : Bool) (totalBufferedMs : Nat)
  | deadline
deriving DecidableEq, Repr

/-- One gate transition.  `observe` mirrors the `checkFirstChunk` interval
callback (lines 367-407): once the first chunk is seen the interval clears
itself, records `startTime = Date.now()` and starts the 100 ms buffer-check
interval.  `poll` mirrors `tryStartPlayback` (lines 376-399): it returns
without resolving while `sourceBuffer` is null, and otherwise resolves as
soon as `hasEnoughBuffer` holds.  `deadline` mirrors the 10-second timeout
(lines 410-415): it clears `checkFirstChunk` and rejects only when no chunk
has arrived. -/
def gstep (s : Gate) : GEv → Gate
  | GEv.chunk _ => { s with hasFirstChunk := true }
  | GEv.observe t =>
      if s.checkCleared || !s.hasFirstChunk then s
      else { s with checkCleared := true, monitoring := true, startTime := t }
  | GEv.poll t sb buf =>
      if !s.monitoring || s.resolved then s
      else if !sb then s
      else if hasEnoughBuffer buf (t - s.startTime) then { s with resolved := true }
      else s
  | GEv.deadline =>
      { s with checkCleared := true, rejected := s.rejected || !s.hasFirstChunk }

def grun (s : Gate) (tr : List GEv) : Gate :=
  tr.foldl gstep s

/-! ### Chunked response reader (`postStream`, HTTP utility module lines
148-185)

The read loop, with chunks as byte lists: for each chunk the running total
is incremented and `onChunk` is invoked with the new total before the next
`reader.read()`.  The result pairs the final `totalBytes` with the sequence
of `received` values reported to the callback, in call order. -/

def postStreamLoop (totalBytes : Nat) (reports : List Nat) :
    List (List Nat) → Nat × List Nat
  | [] => (totalBytes, reports)
  | value :: rest =>
      postStreamLoop (totalBytes + value.length)
        (reports ++ [totalBytes + value.length]) rest

def postStreamRun (chunks : List (List Nat)) : Nat × List Nat :=
  postStreamLoop 0 [] chunks

/-! ### Callback registry (`websocket.js` lines 144-171)

`this.callbacks` is a JavaScript `Map` from event name to an array of
callbacks; a `Map` preserves insertion order, so it is embedded as an
association list.  Callbacks are identified by natural numbers. -/

abbrev Registry := List (String × List Nat)

namespace Dispatcher

def mapGet (m : Registry) (event : String) : Option (List Nat) :=
  match m with
  | [] => none
  | (k, v) :: rest => if k = event then some v else mapGet rest event

def mapSet (m : Registry) (event : String) (v : List Nat) : Registry :=
  match m with
  | [] => [(event, v)]
  | (k, w) :: rest =>
      if k = event then (k, v) :: rest else (k, w) :: mapSet rest event v

/-- `on(event, callback)` (lines 144-149): create the entry if absent, then
push the callback at the end of the tag's array. -/
def onEvent (m : Registry) (event : String) (callback : Nat) : Registry :=
  mapSet m event ((mapGet m event).getD [] ++ [callback])

/-- `splice` at the result of `indexOf`: remove the first occurrence, leave
the list unchanged when the callback is absent. -/
def removeFirst (callback : Nat) : List Nat → List Nat
  | [] => []
  | x :: rest => if x = callback then rest else x :: removeFirst callback rest

/-- `off(event, callback)` (lines 151-159): when the tag is known, remove the
first matching registration; unknown tags leave the registry unchanged. -/
def offEvent (m : Registry) (event : String) (callback : Nat) : Registry :=
  match mapGet m event with
  | none => m
  | some callbacks => mapSet m event (removeFirst callback callbacks)

/-- `emit(event, data)` (lines 161-171) invokes every current subscriber of
the tag in registration order; the returned list is the invocation order. -/
def emit (m : Registry) (event : String) : List Nat :=
  (mapGet m event).getD []

end Dispatcher

/-! ### Invariant predicates used by the proofs -/

/-- Feeder log well-formedness: the append/updateend log alternates and its
final idleness agrees with the `updating` flag. -/
def FWf (s : Feeder) : Prop :=
  wfEnd true s.actions = some (!s.updating)

/-- Feeder ordering invariant for exception-free runs: the submitted chunks
followed by the queued chunks form a subsequence of the arrivals, nothing
happens before `sourceopen`, no writer means no submissions, and an idle
writer means an empty queue. -/
def FOrd (s : Feeder) : Prop :=
  List.Sublist (s.submitted ++ s.pending) s.arrived
  ∧ (s.isSourceOpen = false → s.pending = [] ∧ s.submitted = [] ∧ s.updating = false)
  ∧ (s.sbExists = false → s.submitted = [] ∧ s.updating = false)
  ∧ (s.sbExists = true → s.updating = false → s.pending = [])

/-- Gate invariant: monitoring and resolution can only happen after the
first chunk. -/
def GInv (s : Gate) : Prop :=
  (s.monitoring = true → s.hasFirstChunk = true)
  ∧ (s.resolved = true → s.hasFirstChunk = true)

/-- The feeder state after `sourceopen` succeeds and the network then fails
before delivering any chunk: the `catch` branch sets `streamEnded` without
running `flushPendingChunks`. -/
def c3stuck : Feeder :=
  frun finit [FEv.sourceopen true, FEv.errEnd]

/-! ## Lemmas about the chunked response reader -/

theorem postStreamLoop_total (l : List (List Nat)) :
    ∀ t r, (postStreamLoop t r l).1 = t + (l.map List.length).sum := by
  induction l with
  | nil => intro t r; simp [postStreamLoop]
  | cons v rest ih =>
      intro t r
      simp only [postStreamLoop, ih, List.map_cons, List.sum_cons]
      omega

theorem postStreamLoop_reports (l : List (List Nat)) :
    ∀ t r, (postStreamLoop t r l).2 = r ++ (postStreamLoop t [] l).2 := by
  induction l with
  | nil => intro t r; simp [postStreamLoop]
  | cons v rest ih =>
      intro t r
      rw [postStreamLoop, postStreamLoop]
      rw [ih (t + v.length) (r ++ [t + v.length]), ih (t + v.length) ([] ++ [t + v.length])]
      simp

theorem postStreamLoop_length (l : List (List Nat)) :
    ∀ t, (postStreamLoop t [] l).2.length = l.length := by
  induction l with
  | nil => intro t; simp [postStreamLoop]
  | cons v rest ih =>
      intro t
      rw [postStreamLoop, postStreamLoop_reports]
      simp [ih]

theorem postStreamLoop_chain (l : List (List Nat)) :
    ∀ t, List.Chain' (· ≤ ·) (t :: (postStreamLoop t [] l).2) := by
  induction l with
  | nil => intro t; simp [postStreamLoop]
  | cons v rest ih =>
      intro t
      rw [postStreamLoop, postStreamLoop_reports]
      simp only [List.nil_append, List.singleton_append]
      exact List.Chain'.cons (Nat.le_add_right t v.length) (ih (t + v.length))

theorem postStreamLoop_getLast (l : List (List Nat)) (hl : l ≠ []) :
    ∀ t r, (postStreamLoop t r l).2.getLast? = some (postStreamLoop t r l).1 := by
  induction l with
  | nil => exact absurd rfl hl
  | cons v rest ih =>
      intro t r
      rw [postStreamLoop]
      rcases eq_or_ne rest [] with h | h
      · subst h
        simp [postStreamLoop]
      · exact ih h (t + v.length) (r ++ [t + v.length])

theorem postStreamLoop_append (l1 l2 : List (List Nat)) :
    ∀ t r, postStreamLoop t r (l1 ++ l2)
      = postStreamLoop (postStreamLoop t r l1).1 (postStreamLoop t r l1).2 l2 := by
  induction l1 with
  | nil => intro t r; simp [postStreamLoop]
  | cons v rest ih =>
      intro t r
      rw [List.cons_append, postStreamLoop, postStreamLoop]
      exact ih (t + v.length) (r ++ [t + v.length])

/-- C9: the chunked reader (`postStream`) reports progress exactly once per
chunk; per-chunk reports are emitted before later chunks are processed (the
report sequence of a prefix of the stream is a prefix of the full report
sequence); the reported `received` totals are non-decreasing; and the final
total equals the sum of all chunk lengths. -/
theorem c9_chunk_reader_progress (chunks : List (List Nat)) :
    (postStreamRun chunks).2.length = chunks.length
    ∧ List.Chain' (· ≤ ·) (postStreamRun chunks).2
    ∧ (postStreamRun chunks).1 = (chunks.map List.length).sum
    ∧ (∀ more : List (List Nat), ∃ t : List Nat,
        (postStreamRun (chunks ++ more)).2 = (postStreamRun chunks).2 ++ t)
    ∧ (chunks ≠ [] →
        (postStreamRun chunks).2.getLast? = some (postStreamRun chunks).1) := by
  refine ⟨postStreamLoop_length chunks 0, ?_, ?_, ?_, ?_⟩
  · exact (postStreamLoop_chain chunks 0).tail
  · rw [postStreamRun, postStreamLoop_total]; omega
  · intro more
    refine ⟨(postStreamLoop (postStreamRun chunks).1 [] more).2, ?_⟩
    rw [postStreamRun, postStreamRun, postStreamLoop_append,
      postStreamLoop_reports more]
  · intro h
    exact postStreamLoop_getLast chunks h 0 []

/-- C9 witness: concrete two-chunk stream, discharging the nonemptiness
hypothesis of the final-total conjunct. -/
theorem c9_chunk_reader_progress_witness :
    ([[1, 2], [3]] : List (List Nat)) ≠ []
    ∧ (postStreamRun [[1, 2], [3]]).2.getLast? = some (postStreamRun [[1, 2], [3]]).1 :=
  ⟨by decide, (c9_chunk_reader_progress [[1, 2], [3]]).2.2.2.2 (by decide)⟩

/-! ## Lemmas about the callback registry -/

theorem mapGet_mapSet_self (m : Registry) (e : String) (v : List Nat) :
    Dispatcher.mapGet (Dispatcher.mapSet m e v) e = some v := by
  induction m with
  | nil => simp [Dispatcher.mapSet, Dispatcher.mapGet]
  | cons kv rest ih =>
      obtain ⟨k, w⟩ := kv
      by_cases h : k = e
      · subst h; simp [Dispatcher.mapSet, Dispatcher.mapGet]
      · simp [Dispatcher.mapSet, Dispatcher.mapGet, h, ih]

theorem mapSet_get_self (m : Registry) (e : String) (l : List Nat)
    (h : Dispatcher.mapGet m e = some l) : Dispatcher.mapSet m e l = m := by
  induction m with
  | nil => simp [Dispatcher.mapGet] at h
  | cons kv rest ih =>
      obtain ⟨k, w⟩ := kv
      by_cases hk : k = e
      · subst hk
        simp [Dispatcher.mapGet] at h
        simp [Dispatcher.mapSet, h]
      · simp [Dispatcher.mapGet, hk] at h
        simp [Dispatcher.mapSet, hk, ih h]

theorem removeFirst_of_not_mem (f : Nat) (l : List Nat) (h : f ∉ l) :
    Dispatcher.removeFirst f l = l := by
  induction l with
  | nil => rfl
  | cons x rest ih =>
      rw [List.mem_cons, not_or] at h
      rw [Dispatcher.removeFirst, if_neg (fun hx => h.1 hx.symm), ih h.2]

theorem removeFirst_concat_of_not_mem (f : Nat) (l : List Nat) (h : f ∉ l) :
    Dispatcher.removeFirst f (l ++ [f]) = l := by
  induction l with
  | nil => simp [Dispatcher.removeFirst]
  | cons x rest ih =>
      rw [List.mem_cons, not_or] at h
      rw [List.cons_append, Dispatcher.removeFirst,
        if_neg (fun hx => h.1 hx.symm), ih h.2]

theorem count_removeFirst_concat (f g : Nat) (l : List Nat) :
    List.count g (Dispatcher.removeFirst f (l ++ [f])) = List.count g l := by
  induction l with
  | nil => simp [Dispatcher.removeFirst]
  | cons x rest ih =>
      by_cases hx : x = f
      · subst hx
        rw [List.cons_append, Dispatcher.removeFirst, if_pos rfl]
        simp [List.count_append, List.count_cons]
      · rw [List.cons_append, Dispatcher.removeFirst, if_neg hx]
        simp [List.count_cons, ih]

theorem emit_onEvent_self (m : Registry) (e : String) (f : Nat) :
    Dispatcher.emit (Dispatcher.onEvent m e f) e = Dispatcher.emit m e ++ [f] := by
  simp only [Dispatcher.emit, Dispatcher.onEvent, mapGet_mapSet_self, Option.getD_some]

theorem emit_offEvent_self (m : Registry) (e : String) (f : Nat) :
    Dispatcher.emit (Dispatcher.offEvent m e f) e
      = Dispatcher.removeFirst f (Dispatcher.emit m e) := by
  rw [Dispatcher.offEvent]
  cases h : Dispatcher.mapGet m e with
  | none => simp [Dispatcher.emit, h, Dispatcher.removeFirst]
  | some l => simp [Dispatcher.emit, mapGet_mapSet_self, h]

theorem mapGet_onEvent_self (m : Registry) (e : String) (f : Nat) :
    Dispatcher.mapGet (Dispatcher.onEvent m e f) e
      = some (Dispatcher.emit m e ++ [f]) := by
  simp only [Dispatcher.onEvent, mapGet_mapSet_self, Dispatcher.emit]

/-- C10 counterexample: with `message ↦ [0, 1]` already registered,
subscribing callback `0` again and then unsubscribing it once removes the
*original, earlier* registration of `0` (`indexOf` finds the first match),
so the invocation order seen by `emit` becomes `[1, 0]` — the original
subscriber list `[0, 1]` is *not* restored. -/
theorem c10_counterexample :
    Dispatcher.emit
        (Dispatcher.offEvent
          (Dispatcher.onEvent [("message", [0, 1])] "message" 0) "message" 0)
        "message" = [1, 0]
    ∧ Dispatcher.emit ([("message", [0, 1])] : Registry) "message" = [0, 1]
    ∧ Dispatcher.offEvent
        (Dispatcher.onEvent [("message", [0, 1])] "message" 0) "message" 0
      ≠ ([("message", [0, 1])] : Registry) := by
  refine ⟨?_, ?_, ?_⟩ <;> decide

/-- C10 (amended): `on` appends the callback to the tag's list; `off`
removes exactly the first matching registration and leaves the registry
unchanged for unknown tags or absent callbacks; `on` followed by `off` of
the same callback restores the original list whenever the callback was not
already registered, and in general restores every callback's registration
count (but may move an already-present duplicate, changing invocation
order); after subscribing the same callback twice, a single `off` leaves
exactly one extra registration that `emit` still invokes. -/
theorem c10_dispatcher_registry (m : Registry) (e : String) (f : Nat) :
    Dispatcher.emit (Dispatcher.onEvent m e f) e = Dispatcher.emit m e ++ [f]
    ∧ Dispatcher.emit (Dispatcher.offEvent m e f) e
        = Dispatcher.removeFirst f (Dispatcher.emit m e)
    ∧ (Dispatcher.mapGet m e = none → Dispatcher.offEvent m e f = m)
    ∧ (∀ l, Dispatcher.mapGet m e = some l → f ∉ l → Dispatcher.offEvent m e f = m)
    ∧ (f ∉ Dispatcher.emit m e →
        Dispatcher.emit (Dispatcher.offEvent (Dispatcher.onEvent m e f) e f) e
          = Dispatcher.emit m e)
    ∧ (∀ g, List.count g
          (Dispatcher.emit (Dispatcher.offEvent (Dispatcher.onEvent m e f) e f) e)
        = List.count g (Dispatcher.emit m e))
    ∧ List.count f
        (Dispatcher.emit
          (Dispatcher.offEvent
            (Dispatcher.onEvent (Dispatcher.onEvent m e f) e f) e f) e)
        = List.count f (Dispatcher.emit m e) + 1 := by
  refine ⟨emit_onEvent_self m e f, emit_offEvent_self m e f, ?_, ?_, ?_, ?_, ?_⟩
  · intro h
    rw [Dispatcher.offEvent, h]
  · intro l hl hf
    rw [Dispatcher.offEvent, hl]
    show Dispatcher.mapSet m e (Dispatcher.removeFirst f l) = m
    rw [removeFirst_of_not_mem f l hf, mapSet_get_self m e l hl]
  · intro hf
    rw [emit_offEvent_self, emit_onEvent_self, removeFirst_concat_of_not_mem f _ hf]
  · intro g
    rw [emit_offEvent_self, emit_onEvent_self, count_removeFirst_concat]
  · rw [emit_offEvent_self, emit_onEvent_self, emit_onEvent_self,
      count_removeFirst_concat, List.count_append]
    simp

/-- C10 witness: concrete registry exercising the hypothesis-bearing
conjuncts (unknown tag, absent callback, not-previously-registered
callback). -/
theorem c10_dispatcher_registry_witness :
    Dispatcher.mapGet ([("message", [1])] : Registry) "close" = none
    ∧ Dispatcher.offEvent ([("message", [1])] : Registry) "close" 0
        = ([("message", [1])] : Registry)
    ∧ (0 : Nat) ∉ Dispatcher.emit ([("message", [1])] : Registry) "message"
    ∧ Dispatcher.emit
        (Dispatcher.offEvent
          (Dispatcher.onEvent [("message", [1])] "message" 0) "message" 0)
        "message" = Dispatcher.emit ([("message", [1])] : Registry) "message" :=
  ⟨by decide,
   (c10_dispatcher_registry [("message", [1])] "close" 0).2.2.1 (by decide),
   by decide,
   (c10_dispatcher_registry [("message", [1])] "message" 0).2.2.2.2.1 (by decide)⟩

/-! ## Connection manager: invariants and claims -/

/-- C1 counterexample: a second `connect()` call while the first transport
is still `CONNECTING` does not short-circuit — it constructs a second
`WebSocket`, and the first one has not been closed, so two transports are
live at once. -/
theorem c1_counterexample :
    (wrun winit [WEv.connectCall]).wsState = some ReadyState.CONNECTING
    ∧ (wrun winit [WEv.connectCall, WEv.connectCall]).transportsCreated = 2
    ∧ (wrun winit [WEv.connectCall, WEv.connectCall]).closedTransports = 0 := by
  refine ⟨?_, ?_, ?_⟩ <;> decide

/-- C1 (amended): `connect()` short-circuits — resolving immediately and
creating no transport — exactly when the current transport's ready state is
`OPEN`; in every other state, including a still-`CONNECTING` transport, it
creates a fresh transport (without closing the previous one). -/
theorem c1_connect_single_transport (s : WSM) :
    (s.wsState = some ReadyState.OPEN → wstep s WEv.connectCall = s)
    ∧ (s.wsState ≠ some ReadyState.OPEN →
        (wstep s WEv.connectCall).transportsCreated = s.transportsCreated + 1
        ∧ (wstep s WEv.connectCall).wsState = some ReadyState.CONNECTING
        ∧ (wstep s WEv.connectCall).closedTransports = s.closedTransports) := by
  constructor
  · intro ho
    simp [wstep, connectStep, ho]
  · intro ho
    refine ⟨?_, ?_, ?_⟩ <;> simp [wstep, connectStep, ho]

/-- C1 witness: after a successful open, a further `connect()` call leaves
the manager state untouched (it resolves immediately). -/
theorem c1_connect_single_transport_witness :
    wstep (wrun winit [WEv.connectCall, WEv.openEvt]) WEv.connectCall
      = wrun winit [WEv.connectCall, WEv.openEvt] :=
  (c1_connect_single_transport (wrun winit [WEv.connectCall, WEv.openEvt])).1 (by decide)

/-- C7: on an unexpected close (manual-close flag not set, a live transport
closing, auto-reconnect enabled by configuration): below the cap of 5 the
counter increments and exactly one reconnect is scheduled after the fixed
3000 ms interval with no `reconnectFailed`; at or above the cap,
`reconnectFailed` is published, nothing is scheduled and the counter is
unchanged; reconnects are only ever scheduled by the close handler; and the
counter resets to zero only on a successful open. -/
theorem c7_reconnect_policy (s : WSM) (hm : s.isManualClose = false)
    (hl : s.closedTransports < s.transportsCreated) :
    (s.reconnectCount < reconnectAttempts →
      (wstep s WEv.closeEvt).reconnectCount = s.reconnectCount + 1
      ∧ (wstep s WEv.closeEvt).scheduledReconnects
          = s.scheduledReconnects ++ [reconnectInterval]
      ∧ (wstep s WEv.closeEvt).published = s.published ++ [WOut.closeEv])
    ∧ (reconnectAttempts ≤ s.reconnectCount →
      (wstep s WEv.closeEvt).reconnectCount = s.reconnectCount
      ∧ (wstep s WEv.closeEvt).scheduledReconnects = s.scheduledReconnects
      ∧ (wstep s WEv.closeEvt).published
          = s.published ++ [WOut.closeEv, WOut.reconnectFailed])
    ∧ (∀ e, e ≠ WEv.closeEvt → (wstep s e).scheduledReconnects = s.scheduledReconnects)
    ∧ (∀ e, (wstep s e).reconnectCount = 0 →
        s.reconnectCount = 0 ∨ e = WEv.openEvt) := by
  refine ⟨?_, ?_, ?_, ?_⟩
  · intro hcap
    have : ¬ reconnectAttempts ≤ s.reconnectCount := by omega
    refine ⟨?_, ?_, ?_⟩ <;>
      simp [wstep, hl, handleClose, stopHeartbeat, attemptReconnect, autoReconnect, hm, this]
  · intro hcap
    refine ⟨?_, ?_, ?_⟩ <;>
      simp [wstep, hl, handleClose, stopHeartbeat, attemptReconnect, autoReconnect, hm, hcap]
  · intro e he
    cases e with
    | connectCall => simp [wstep, connectStep]; split <;> simp
    | openEvt =>
        simp [wstep, handleOpen, startHeartbeat, heartbeatEnabled]; split <;> simp
    | closeEvt => exact absurd rfl he
    | errorEvt => simp [wstep]; split <;> simp
    | closeCall => simp [wstep, closeCallStep, stopHeartbeat]
    | hbTick now => simp [wstep, heartbeatTick]; split <;> [simp; split <;> simp]
  · intro e he
    cases e with
    | connectCall =>
        left
        simp [wstep, connectStep] at he
        revert he; split <;> simp
    | openEvt => right; rfl
    | closeEvt =>
        left
        simp [wstep, hl, handleClose, stopHeartbeat, attemptReconnect,
          autoReconnect, hm] at he
        revert he; split <;> simp
    | errorEvt =>
        left
        simp [wstep] at he
        revert he; split <;> simp
    | closeCall => left; simpa [wstep, closeCallStep, stopHeartbeat] using he
    | hbTick now =>
        left
        simp [wstep, heartbeatTick] at he
        revert he; split
        · simp
        · split <;> simp

/-- C7 witness: from the state with one live connecting transport (counter
0, below the cap), an unexpected close increments the counter to 1 and
schedules exactly one reconnect after 3000 ms. -/
theorem c7_reconnect_policy_witness :
    (wstep (wrun winit [WEv.connectCall]) WEv.closeEvt).reconnectCount
        = (wrun winit [WEv.connectCall]).reconnectCount + 1
    ∧ (wstep (wrun winit [WEv.connectCall]) WEv.closeEvt).scheduledReconnects
        = (wrun winit [WEv.connectCall]).scheduledReconnects ++ [reconnectInterval]
    ∧ (wstep (wrun winit [WEv.connectCall]) WEv.closeEvt).published
        = (wrun winit [WEv.connectCall]).published ++ [WOut.closeEv] :=
  (c7_reconnect_policy (wrun winit [WEv.connectCall]) (by decide) (by decide)).1
    (by decide)

/-- C8 counterexample: the claimed heartbeat-iff-open fails in the
program.  After two `connect()` calls while still connecting (two live
transports), the first transport's `onopen` starts the heartbeat while the
current transport is still `CONNECTING` (active, not open); after both
open, the stale transport's `onclose` runs `stopHeartbeat` while the
current transport is `OPEN` (open, field-timer stopped — and the earlier
interval, leaked by the second `startHeartbeat`'s overwrite, is still
running); and after `close()` that leaked interval is still running
(closed, timer active). -/
theorem c8_counterexample :
    (mrun minit [MEv.connectCall, MEv.connectCall, MEv.openEvt 0]).intervals ≠ []
    ∧ currentState (mrun minit [MEv.connectCall, MEv.connectCall, MEv.openEvt 0])
        = some ReadyState.CONNECTING
    ∧ currentState (mrun minit [MEv.connectCall, MEv.connectCall, MEv.openEvt 0,
        MEv.openEvt 1, MEv.closeEvt 0]) = some ReadyState.OPEN
    ∧ (mrun minit [MEv.connectCall, MEv.connectCall, MEv.openEvt 0,
        MEv.openEvt 1, MEv.closeEvt 0]).heartbeatSlot = none
    ∧ (mrun minit [MEv.connectCall, MEv.connectCall, MEv.openEvt 0,
        MEv.openEvt 1, MEv.closeEvt 0]).intervals ≠ []
    ∧ (mrun minit [MEv.connectCall, MEv.connectCall, MEv.openEvt 0,
        MEv.openEvt 1, MEv.closeCall]).isManualClose = true
    ∧ (mrun minit [MEv.connectCall, MEv.connectCall, MEv.openEvt 0,
        MEv.openEvt 1, MEv.closeCall]).intervals ≠ [] := by
  refine ⟨?_, ?_, ?_, ?_, ?_, ?_, ?_⟩ <;> decide

/-- C8 (amended): every transport's `onopen` installs a heartbeat interval
with the fixed 30000 ms period and makes it the field-referenced timer; a
tick of any running interval publishes a `ping`-tagged message carrying the
timestamp if and only if the current transport is `OPEN` (so pings are
emitted only while open, leaked timers included); `close()` and any
transport's `onclose` immediately stop the interval the field references
and clear the field — but an interval leaked by a second `onopen`'s
overwrite survives `close()`.  The claimed timer-active-iff-open
equivalence itself fails in reachable states in both directions (see the
counterexample). -/
theorem c8_heartbeat_behavior (s : MWS) :
    (∀ i, s.transports[i]? = some ReadyState.CONNECTING →
        (mstep s (MEv.openEvt i)).heartbeatSlot = some s.nextTimer
        ∧ (mstep s (MEv.openEvt i)).intervals
            = s.intervals ++ [(s.nextTimer, heartbeatInterval)])
    ∧ (∀ id now, (mstep s (MEv.hbTick id now)).published
        = s.published
          ++ (if currentState s = some ReadyState.OPEN
                ∧ s.intervals.any (fun t => t.1 == id) = true
              then [WOut.ping now] else []))
    ∧ (mstep s MEv.closeCall).heartbeatSlot = none
    ∧ (∀ id, s.heartbeatSlot = some id →
        ∀ p ∈ (mstep s MEv.closeCall).intervals, p.1 ≠ id)
    ∧ (∀ p ∈ s.intervals, (∀ id, s.heartbeatSlot = some id → p.1 ≠ id) →
        p ∈ (mstep s MEv.closeCall).intervals)
    ∧ (∀ i st, s.transports[i]? = some st → st ≠ ReadyState.CLOSED →
        (mstep s (MEv.closeEvt i)).heartbeatSlot = none) := by
  refine ⟨?_, ?_, ?_, ?_, ?_, ?_⟩
  · intro i hi
    refine ⟨?_, ?_⟩ <;>
      simp [mstep, hi, mOpen, mStartHeartbeat, heartbeatEnabled]
  · intro id now
    by_cases ha : s.intervals.any (fun t => t.1 == id) = true
    · by_cases ho : currentState s = some ReadyState.OPEN
      · simp [mstep, ha, mTick, ho]
      · simp [mstep, ha, mTick, ho]
    · simp [mstep, ha]
  · cases hs : s.heartbeatSlot <;> cases hc : s.current <;>
      simp [mstep, mCloseCall, mStopHeartbeat, hs, hc]
  · intro id hid p hp
    have hm : p ∈ s.intervals.filter (fun t => t.1 != id) := by
      cases hc : s.current <;>
        simpa [mstep, mCloseCall, mStopHeartbeat, hid, hc] using hp
    have := (List.mem_filter.mp hm).2
    simpa using this
  · intro p hp hid
    cases hs : s.heartbeatSlot with
    | none =>
        cases hc : s.current <;>
          simpa [mstep, mCloseCall, mStopHeartbeat, hs, hc] using hp
    | some id =>
        have hne : p.1 ≠ id := hid id hs
        have hm : p ∈ s.intervals.filter (fun t => t.1 != id) :=
          List.mem_filter.mpr ⟨hp, by simpa using hne⟩
        cases hc : s.current <;>
          simpa [mstep, mCloseCall, mStopHeartbeat, hs, hc] using hm
  · intro i st hi hst
    cases st with
    | CLOSED => exact absurd rfl hst
    | CONNECTING =>
        cases hs : s.heartbeatSlot <;>
          simp [mstep, hi, mClose, mStopHeartbeat, hs, autoReconnect] <;>
          split <;> (try split) <;> rfl
    | OPEN =>
        cases hs : s.heartbeatSlot <;>
          simp [mstep, hi, mClose, mStopHeartbeat, hs, autoReconnect] <;>
          split <;> (try split) <;> rfl
    | CLOSING =>
        cases hs : s.heartbeatSlot <;>
          simp [mstep, hi, mClose, mStopHeartbeat, hs, autoReconnect] <;>
          split <;> (try split) <;> rfl

/-- C8 witness: from the state with one connecting transport, its `onopen`
installs the 30000 ms interval into the timer field; after it opens, its
`onclose` clears the field immediately. -/
theorem c8_heartbeat_behavior_witness :
    (mstep (mrun minit [MEv.connectCall]) (MEv.openEvt 0)).heartbeatSlot
        = some (mrun minit [MEv.connectCall]).nextTimer
    ∧ (mstep (mrun minit [MEv.connectCall]) (MEv.openEvt 0)).intervals
        = (mrun minit [MEv.connectCall]).intervals
          ++ [((mrun minit [MEv.connectCall]).nextTimer, heartbeatInterval)]
    ∧ (mstep (mrun minit [MEv.connectCall, MEv.openEvt 0])
        (MEv.closeEvt 0)).heartbeatSlot = none :=
  ⟨((c8_heartbeat_behavior (mrun minit [MEv.connectCall])).1 0 (by decide)).1,
   ((c8_heartbeat_behavior (mrun minit [MEv.connectCall])).1 0 (by decide)).2,
   (c8_heartbeat_behavior (mrun minit [MEv.connectCall, MEv.openEvt 0])).2.2.2.2.2
     0 ReadyState.OPEN (by decide) (by decide)⟩

/-! ## Streaming feeder: bookkeeping lemmas -/

theorem sourceopen_eosCount (s : Feeder) (ok : Bool) :
    (fstep s (FEv.sourceopen ok)).eosCount = s.eosCount := by
  simp only [fstep]
  split <;> rfl

theorem feedOne_eosCount (c : Nat) (thr : Bool) (s : Feeder) :
    (feedOne c thr s).eosCount = s.eosCount := by
  simp only [feedOne]
  split
  · split <;> rfl
  · rfl

theorem handleChunk_eosCount (c : Nat) (thr : Bool) (s : Feeder) :
    (handleChunk c thr s).eosCount = s.eosCount := by
  simp only [handleChunk]
  split
  · show (feedOne c thr _).eosCount = s.eosCount
    rw [feedOne_eosCount]
  · rfl

theorem arrive_eosCount (s : Feeder) (c : Nat) (thr : Bool) :
    (fstep s (FEv.arrive c thr)).eosCount = s.eosCount := by
  simp only [fstep]
  split
  · rfl
  · exact handleChunk_eosCount c thr s

theorem errEnd_eosCount (s : Feeder) :
    (fstep s FEv.errEnd).eosCount = s.eosCount := by
  simp only [fstep]
  split <;> rfl

theorem flushOnce_eosCount (thr : Bool) (s : Feeder) :
    (flushOnce thr s).eosCount = s.eosCount := by
  simp only [flushOnce]
  split
  · rfl
  · split <;> rfl

theorem eos_post_of_flush (thr : Bool) (s : Feeder)
    (h : s.eosCount < (flushPendingChunks thr s).eosCount) :
    (flushPendingChunks thr s).streamEnded = true
    ∧ (flushPendingChunks thr s).pending = []
    ∧ (flushPendingChunks thr s).updating = false := by
  by_cases hg : (!s.sbExists || s.updating) = true
  · rw [flushPendingChunks, if_pos hg] at h
    exact absurd h (lt_irrefl _)
  · rw [flushPendingChunks, if_neg hg] at h ⊢
    rw [flushFinalize] at h ⊢
    by_cases he : ((flushOnce thr s).streamEnded && (flushOnce thr s).pending.isEmpty
        && !(flushOnce thr s).updating && (flushOnce thr s).mediaOpen) = true
    · rw [if_pos he] at h ⊢
      rw [Bool.and_eq_true, Bool.and_eq_true, Bool.and_eq_true] at he
      obtain ⟨⟨⟨hse, hp⟩, hu⟩, hm⟩ := he
      refine ⟨hse, List.isEmpty_iff.mp hp, ?_⟩
      rwa [Bool.not_eq_true'] at hu
    · rw [if_neg he, flushOnce_eosCount] at h
      exact absurd h (lt_irrefl _)

theorem c3stuck_val :
    c3stuck = { isSourceOpen := true, sbExists := true, mediaOpen := true
                streamEnded := true } := by
  decide

theorem c3stuck_fix (e : FEv) : fstep c3stuck e = c3stuck := by
  rw [c3stuck_val]
  cases e with
  | sourceopen ok => simp [fstep]
  | arrive c thr => simp [fstep]
  | updateend thr => simp [fstep]
  | done thr => simp [fstep]
  | errEnd => simp [fstep]

theorem c3stuck_run (tr : List FEv) : frun c3stuck tr = c3stuck := by
  induction tr with
  | nil => rfl
  | cons e rest ih =>
      show frun (fstep c3stuck e) rest = c3stuck
      rw [c3stuck_fix e]
      exact ih

/-- C3 counterexample: after `sourceopen` succeeds and the network read then
fails before any chunk (`catch` branch, `postStreamRealtime` lines 354-361),
`streamEnded` is true, `pending` is empty and the writer is idle — yet
`mediaSource.endOfStream()` has not been called, because the error path sets
`streamEnded` without running `flushPendingChunks` (and, the state being
stuck, never will: see the final conjunct of the amended theorem). -/
theorem c3_counterexample :
    (frun finit [FEv.sourceopen true, FEv.errEnd]).streamEnded = true
    ∧ (frun finit [FEv.sourceopen true, FEv.errEnd]).pending = []
    ∧ (frun finit [FEv.sourceopen true, FEv.errEnd]).updating = false
    ∧ (frun finit [FEv.sourceopen true, FEv.errEnd]).mediaOpen = true
    ∧ (frun finit [FEv.sourceopen true, FEv.errEnd]).eosCount = 0 := by
  refine ⟨?_, ?_, ?_, ?_, ?_⟩ <;> decide

/-- C3 (amended): finalization (`endOfStream`) happens *only* in states
where the stream has ended, the queue is empty and the writer is idle; it
*does* happen whenever those conditions are brought about by the read-loop
completion (`done`) or by a writer-completion (`updateend`) while the
container is open; but on the network-error path, which sets `streamEnded`
without flushing, the conditions can hold forever with finalization never
occurring. -/
theorem c3_finalization :
    (∀ (s : Feeder) (e : FEv), s.eosCount < (fstep s e).eosCount →
      (fstep s e).streamEnded = true ∧ (fstep s e).pending = []
        ∧ (fstep s e).updating = false)
    ∧ (∀ (s : Feeder) (thr : Bool), s.sbExists = true → s.updating = false →
        s.pending = [] → s.mediaOpen = true → s.streamEnded = false →
        (fstep s (FEv.done thr)).eosCount = s.eosCount + 1)
    ∧ (∀ (s : Feeder) (thr : Bool), s.sbExists = true → s.updating = true →
        s.pending = [] → s.mediaOpen = true → s.streamEnded = true →
        (fstep s (FEv.updateend thr)).eosCount = s.eosCount + 1)
    ∧ (∀ tr : List FEv, (frun c3stuck tr).eosCount = 0) := by
  refine ⟨?_, ?_, ?_, ?_⟩
  · intro s e h
    cases e with
    | sourceopen ok => rw [sourceopen_eosCount] at h; exact absurd h (lt_irrefl _)
    | arrive c thr => rw [arrive_eosCount] at h; exact absurd h (lt_irrefl _)
    | errEnd => rw [errEnd_eosCount] at h; exact absurd h (lt_irrefl _)
    | updateend thr =>
        by_cases hu : s.updating = true
        · rw [fstep, if_pos hu] at h ⊢
          exact eos_post_of_flush thr _ h
        · rw [fstep, if_neg hu] at h
          exact absurd h (lt_irrefl _)
    | done thr =>
        by_cases hse : s.streamEnded = true
        · rw [fstep, if_pos hse] at h
          exact absurd h (lt_irrefl _)
        · rw [fstep, if_neg hse] at h ⊢
          exact eos_post_of_flush thr _ h
  · intro s thr hsb hu hp hm hse
    rw [fstep, if_neg (by rw [hse]; exact Bool.false_ne_true),
      flushPendingChunks, if_neg (by simp [hsb, hu]), flushOnce]
    simp only [hp]
    rw [flushFinalize, if_pos (by simp [hp, hu, hm])]
  · intro s thr hsb hu hp hm hse
    rw [fstep, if_pos hu, flushPendingChunks, if_neg (by simp [hsb]), flushOnce]
    simp only [hp]
    rw [flushFinalize, if_pos (by simp [hp, hse, hm])]
  · intro tr
    rw [c3stuck_run, c3stuck_val]

/-- C3 witness: a run that submitted one chunk and drained it, then the read
loop completes — `endOfStream` is called in that same step. -/
theorem c3_finalization_witness :
    (fstep (frun finit [FEv.sourceopen true, FEv.arrive 0 false, FEv.updateend false])
        (FEv.done false)).eosCount
      = (frun finit [FEv.sourceopen true, FEv.arrive 0 false, FEv.updateend false]).eosCount
        + 1 :=
  c3_finalization.2.1
    (frun finit [FEv.sourceopen true, FEv.arrive 0 false, FEv.updateend false]) false
    (by decide) (by decide) (by decide) (by decide) (by decide)

/-- C4 counterexample: when the writer sub-resource was never created
(`sourceopen` fired but both `addSourceBuffer` attempts failed), chunks pile
up in `pending` past the threshold of 5 with the read loop never pausing:
the backpressure check sits inside the `isSourceOpen && sourceBuffer`
branch, so read steps taken before the writer exists skip it. -/
theorem c4_counterexample :
    5 < (frun finit [FEv.sourceopen false, FEv.arrive 0 false, FEv.arrive 1 false,
        FEv.arrive 2 false, FEv.arrive 3 false, FEv.arrive 4 false,
        FEv.arrive 5 false]).pending.length
    ∧ (frun finit [FEv.sourceopen false, FEv.arrive 0 false, FEv.arrive 1 false,
        FEv.arrive 2 false, FEv.arrive 3 false, FEv.arrive 4 false,
        FEv.arrive 5 false]).pausedLog.getLast? = some false := by
  refine ⟨?_, ?_⟩ <;> decide

/-- C4 (amended): on a read step handled while the writer exists, the loop
pauses for the fixed 50 ms slice exactly when the pending queue holds more
than 5 chunks after the step; on a read step where the writer does not
exist, the chunk is queued and the loop never pauses, regardless of the
queue length. -/
theorem c4_backpressure (s : Feeder) (c : Nat) (thr : Bool)
    (h1 : s.streamEnded = false) (h2 : s.isSourceOpen = true) :
    (s.sbExists = true →
      (fstep s (FEv.arrive c thr)).pausedLog
        = s.pausedLog ++ [decide (5 < (fstep s (FEv.arrive c thr)).pending.length)])
    ∧ (s.sbExists = false →
      (fstep s (FEv.arrive c thr)).pausedLog = s.pausedLog ++ [false]
      ∧ (fstep s (FEv.arrive c thr)).pending = s.pending ++ [c]) := by
  constructor
  · intro hsb
    by_cases hu : s.updating = true <;> by_cases ht : thr = true <;>
      simp_all [fstep, handleChunk, pauseCheck, feedOne]
  · intro hsb
    simp_all [fstep, handleChunk]

/-- C4 witness: first chunk handled right after a successful `sourceopen`
(writer exists, queue far below the threshold): no pause is recorded. -/
theorem c4_backpressure_witness :
    (fstep (frun finit [FEv.sourceopen true]) (FEv.arrive 0 false)).pausedLog
      = (frun finit [FEv.sourceopen true]).pausedLog
        ++ [decide (5 < (fstep (frun finit [FEv.sourceopen true])
              (FEv.arrive 0 false)).pending.length)] :=
  (c4_backpressure (frun finit [FEv.sourceopen true]) 0 false
    (by decide) (by decide)).1 (by decide)

/-- C6 counterexample: when the *detected* content-type is itself
`audio/mpeg` and `addSourceBuffer` throws, the handler's retry guard
(`detectedMimeType && detectedMimeType !== 'audio/mpeg'`) is false: exactly
one attempt is made and no fallback retry happens, contradicting "for every
detected content-type ... retried exactly once". -/
theorem c6_counterexample :
    (addSourceBufferAttempts (some "audio/mpeg") (some "audio/mpeg") true false).1
        = ["audio/mpeg"]
    ∧ (addSourceBufferAttempts (some "audio/mpeg") (some "audio/mpeg") true false).2
        = false := by
  refine ⟨?_, ?_⟩ <;> rfl

/-- C6 (amended): for every *detected* content-type other than the fallback
`audio/mpeg` itself, a failed creation is retried exactly once with the
fixed fallback `audio/mpeg` (succeeding iff the fallback attempt does not
throw); when the detected type is `audio/mpeg`, or no type was detected,
there is no retry; and a creation failure is non-fatal to the stream —
subsequent chunks are queued in `pending` with the stream neither ended nor
finalized. -/
theorem c6_fallback_retry (d : String) (respType : Option String) (fb : Bool)
    (hd : d ≠ "audio/mpeg") (s : Feeder) (c : Nat) (thr : Bool)
    (h1 : s.streamEnded = false) (h2 : s.isSourceOpen = true)
    (h3 : s.sbExists = false) :
    (addSourceBufferAttempts (some d) respType true fb).1 = [d, "audio/mpeg"]
    ∧ (addSourceBufferAttempts (some d) respType true false).2 = true
    ∧ (addSourceBufferAttempts (some d) respType true true).2 = false
    ∧ (addSourceBufferAttempts none respType true fb).1.length = 1
    ∧ (fstep s (FEv.arrive c thr)).pending = s.pending ++ [c]
    ∧ (fstep s (FEv.arrive c thr)).streamEnded = false
    ∧ (fstep s (FEv.arrive c thr)).eosCount = s.eosCount := by
  refine ⟨?_, ?_, ?_, ?_, ?_, ?_, ?_⟩
  · simp [addSourceBufferAttempts, hd]
  · simp [addSourceBufferAttempts, hd]
  · simp [addSourceBufferAttempts, hd]
  · cases respType <;> simp [addSourceBufferAttempts]
  · simp_all [fstep, handleChunk]
  · simp_all [fstep, handleChunk]
  · simp_all [fstep, handleChunk]

/-- C6 witness: a detected `audio/wav` type whose creation throws is retried
with `audio/mpeg`; the non-fatal path queues the next chunk. -/
theorem c6_fallback_retry_witness :
    (addSourceBufferAttempts (some "audio/wav") (some "audio/mpeg") true false).1
        = ["audio/wav", "audio/mpeg"]
    ∧ (fstep (frun finit [FEv.sourceopen false]) (FEv.arrive 7 false)).pending
        = (frun finit [FEv.sourceopen false]).pending ++ [7] := by
  have h := c6_fallback_retry "audio/wav" (some "audio/mpeg") false (by decide)
    (frun finit [FEv.sourceopen false]) 7 false (by decide) (by decide) (by decide)
  exact ⟨h.1, h.2.2.2.2.1⟩

/-! ## Submission ordering and non-overlap -/

theorem wfEnd_append (l1 l2 : List FAct) :
    ∀ b, wfEnd b (l1 ++ l2) = (wfEnd b l1).bind (fun b2 => wfEnd b2 l2) := by
  induction l1 with
  | nil => intro b; simp [wfEnd]
  | cons a rest ih =>
      intro b
      cases a <;> cases b <;> simp [wfEnd, ih]

theorem fwf_init : FWf finit := rfl

theorem fwf_feedOne (c : Nat) (thr : Bool) (s : Feeder) (h : FWf s) :
    FWf (feedOne c thr s) := by
  unfold FWf at h ⊢
  cases hu : s.updating <;> cases ht : thr <;>
    simp_all [feedOne, wfEnd_append, wfEnd]

theorem fwf_handleChunk (c : Nat) (thr : Bool) (s : Feeder) (h : FWf s) :
    FWf (handleChunk c thr s) := by
  unfold handleChunk
  split
  · show FWf (pauseCheck (feedOne c thr { s with arrived := s.arrived ++ [c] }))
    exact fwf_feedOne c thr _ h
  · exact h

theorem fwf_flushOnce (thr : Bool) (s : Feeder) (hu : s.updating = false)
    (h : FWf s) : FWf (flushOnce thr s) := by
  unfold FWf at h ⊢
  simp only [flushOnce]
  split
  · exact h
  · split
    · exact h
    · simp_all [wfEnd_append, wfEnd]

theorem fwf_flushFinalize (s : Feeder) (h : FWf s) : FWf (flushFinalize s) := by
  unfold flushFinalize
  split
  · exact h
  · exact h

theorem fwf_flush (thr : Bool) (s : Feeder) (h : FWf s) :
    FWf (flushPendingChunks thr s) := by
  unfold flushPendingChunks
  split
  · exact h
  · rename_i hg
    have hu : s.updating = false := by revert hg; cases s.updating <;> simp
    exact fwf_flushFinalize _ (fwf_flushOnce thr s hu h)

theorem fwf_step (s : Feeder) (e : FEv) (h : FWf s) : FWf (fstep s e) := by
  cases e with
  | sourceopen ok =>
      simp only [fstep]
      split
      · exact h
      · exact h
  | arrive c thr =>
      simp only [fstep]
      split
      · exact h
      · exact fwf_handleChunk c thr s h
  | updateend thr =>
      simp only [fstep]
      split
      · rename_i hu
        apply fwf_flush
        unfold FWf at h ⊢
        simp_all [wfEnd_append, wfEnd]
      · exact h
  | done thr =>
      simp only [fstep]
      split
      · exact h
      · exact fwf_flush thr _ h
  | errEnd =>
      simp only [fstep]
      split
      · exact h
      · exact h

theorem fwf_frun (tr : List FEv) : ∀ s, FWf s → FWf (frun s tr) := by
  induction tr with
  | nil => intro s h; exact h
  | cons e rest ih =>
      intro s h
      exact ih (fstep s e) (fwf_step s e h)

theorem ford_init : FOrd finit := by
  refine ⟨?_, ?_, ?_, ?_⟩
  · simp [finit]
  · intro _; exact ⟨rfl, rfl, rfl⟩
  · intro _; exact ⟨rfl, rfl⟩
  · intro _ _; rfl

theorem ford_flushFinalize (s : Feeder) (h : FOrd s) : FOrd (flushFinalize s) := by
  unfold flushFinalize
  split
  · exact h
  · exact h

theorem ford_flushOnce (s : Feeder) (hsbT : s.sbExists = true)
    (hsub : List.Sublist (s.submitted ++ s.pending) s.arrived)
    (hso : s.isSourceOpen = false → s.pending = [] ∧ s.submitted = [] ∧ s.updating = false)
    (hsb : s.sbExists = false → s.submitted = [] ∧ s.updating = false) :
    FOrd (flushOnce false s) := by
  simp only [flushOnce]
  split
  · rename_i hp
    refine ⟨hsub, hso, hsb, ?_⟩
    intro _ _
    exact hp
  · rename_i c rest hp
    simp only [Bool.false_eq_true, if_false]
    refine ⟨?_, ?_, ?_, ?_⟩
    · show List.Sublist ((s.submitted ++ [c]) ++ rest) s.arrived
      rw [List.append_assoc, List.singleton_append, ← hp]
      exact hsub
    · intro hx
      obtain ⟨hpe, _, _⟩ := hso hx
      rw [hp] at hpe
      cases hpe
    · intro hx
      rw [hsbT] at hx
      cases hx
    · intro _ hb
      cases hb

theorem ford_flush (s : Feeder)
    (hsub : List.Sublist (s.submitted ++ s.pending) s.arrived)
    (hso : s.isSourceOpen = false → s.pending = [] ∧ s.submitted = [] ∧ s.updating = false)
    (hsb : s.sbExists = false → s.submitted = [] ∧ s.updating = false) :
    FOrd (flushPendingChunks false s) := by
  unfold flushPendingChunks
  split
  · rename_i hg
    refine ⟨hsub, hso, hsb, ?_⟩
    intro ha hb
    rw [ha, hb] at hg
    simp at hg
  · rename_i hg
    have hsbT : s.sbExists = true := by revert hg; cases s.sbExists <;> simp
    exact ford_flushFinalize _ (ford_flushOnce s hsbT hsub hso hsb)

theorem ford_handleChunk (c : Nat) (s : Feeder) (hso2 : s.isSourceOpen = true)
    (h : FOrd s) : FOrd (handleChunk c false s) := by
  obtain ⟨hsub, hso, hsb, hidle⟩ := h
  unfold handleChunk
  split
  · rename_i hg
    have hsbT : s.sbExists = true := by
      revert hg; rw [hso2]; cases s.sbExists <;> simp
    show FOrd (pauseCheck (feedOne c false { s with arrived := s.arrived ++ [c] }))
    simp only [feedOne]
    cases hu : s.updating with
    | false =>
        have hpend : s.pending = [] := hidle hsbT hu
        simp only [Bool.not_false, if_true, Bool.false_eq_true, if_false]
        refine ⟨?_, ?_, ?_, ?_⟩
        · show List.Sublist ((s.submitted ++ [c]) ++ s.pending) (s.arrived ++ [c])
          rw [hpend, List.append_nil]
          rw [hpend, List.append_nil] at hsub
          exact List.Sublist.append hsub (List.Sublist.refl [c])
        · intro hx
          rw [hso2] at hx
          cases hx
        · intro hx
          rw [hsbT] at hx
          cases hx
        · intro _ hb
          cases hb
    | true =>
        simp only [Bool.not_true, Bool.false_eq_true, if_false]
        refine ⟨?_, ?_, ?_, ?_⟩
        · show List.Sublist (s.submitted ++ (s.pending ++ [c])) (s.arrived ++ [c])
          rw [← List.append_assoc]
          exact List.Sublist.append hsub (List.Sublist.refl [c])
        · intro hx
          rw [hso2] at hx
          cases hx
        · intro hx
          rw [hsbT] at hx
          cases hx
        · intro _ hb
          cases hb
  · rename_i hg
    have hsbF : s.sbExists = false := by
      revert hg; rw [hso2]; cases s.sbExists <;> simp
    obtain ⟨hsm, hu⟩ := hsb hsbF
    refine ⟨?_, ?_, ?_, ?_⟩
    · show List.Sublist (s.submitted ++ (s.pending ++ [c])) (s.arrived ++ [c])
      rw [← List.append_assoc]
      exact List.Sublist.append hsub (List.Sublist.refl [c])
    · intro hx
      rw [hso2] at hx
      cases hx
    · intro _
      exact ⟨hsm, hu⟩
    · intro hx
      rw [hsbF] at hx
      cases hx

theorem ford_step (s : Feeder) (e : FEv) (hn : noThrow e = true) (h : FOrd s) :
    FOrd (fstep s e) := by
  obtain ⟨hsub, hso, hsb, hidle⟩ := h
  cases e with
  | sourceopen ok =>
      simp only [fstep]
      split
      · exact ⟨hsub, hso, hsb, hidle⟩
      · rename_i hopen
        have hof : s.isSourceOpen = false := by
          revert hopen; cases s.isSourceOpen <;> simp
        obtain ⟨hp, hsm, hu⟩ := hso hof
        refine ⟨hsub, ?_, ?_, ?_⟩
        · intro hx; cases hx
        · intro _; exact ⟨hsm, hu⟩
        · intro _ _; exact hp
  | arrive c thr =>
      have ht : thr = false := by revert hn; cases thr <;> simp [noThrow]
      subst ht
      simp only [fstep]
      split
      · exact ⟨hsub, hso, hsb, hidle⟩
      · rename_i hgate
        have hso2 : s.isSourceOpen = true := by
          revert hgate; cases s.isSourceOpen <;> simp
        exact ford_handleChunk c s hso2 ⟨hsub, hso, hsb, hidle⟩
  | updateend thr =>
      have ht : thr = false := by revert hn; cases thr <;> simp [noThrow]
      subst ht
      simp only [fstep]
      split
      · apply ford_flush
        · exact hsub
        · intro hx
          obtain ⟨a, b, _⟩ := hso hx
          exact ⟨a, b, rfl⟩
        · intro hx
          obtain ⟨a, _⟩ := hsb hx
          exact ⟨a, rfl⟩
      · exact ⟨hsub, hso, hsb, hidle⟩
  | done thr =>
      have ht : thr = false := by revert hn; cases thr <;> simp [noThrow]
      subst ht
      simp only [fstep]
      split
      · exact ⟨hsub, hso, hsb, hidle⟩
      · apply ford_flush
        · exact hsub
        · intro hx; exact hso hx
        · intro hx; exact hsb hx
  | errEnd =>
      simp only [fstep]
      split
      · exact ⟨hsub, hso, hsb, hidle⟩
      · exact ⟨hsub, hso, hsb, hidle⟩

theorem ford_frun (tr : List FEv) :
    ∀ s, tr.all noThrow = true → FOrd s → FOrd (frun s tr) := by
  induction tr with
  | nil => intro s _ h; exact h
  | cons e rest ih =>
      intro s hall h
      rw [List.all_cons, Bool.and_eq_true] at hall
      exact ih (fstep s e) hall.2 (ford_step s e hall.1 h)

/-- C2 counterexample: a direct `appendBuffer` throw queues chunk 1 in
`pending` while leaving the writer idle; the next chunk 2 is then appended
*directly*, bypassing the queue, and the later flush submits chunk 1 after
it: submission order `[2, 1]` versus arrival order `[1, 2]`. -/
theorem c2_counterexample :
    (frun finit [FEv.sourceopen true, FEv.arrive 1 true, FEv.arrive 2 false,
        FEv.updateend false]).arrived = [1, 2]
    ∧ (frun finit [FEv.sourceopen true, FEv.arrive 1 true, FEv.arrive 2 false,
        FEv.updateend false]).submitted = [2, 1]
    ∧ ¬ List.Sublist
        (frun finit [FEv.sourceopen true, FEv.arrive 1 true, FEv.arrive 2 false,
          FEv.updateend false]).submitted
        (frun finit [FEv.sourceopen true, FEv.arrive 1 true, FEv.arrive 2 false,
          FEv.updateend false]).arrived := by
  refine ⟨?_, ?_, ?_⟩ <;> decide

/-- C2 (amended): submissions to the writer never overlap — the log of
`appendBuffer` calls and `updateend` notifications alternates, every append
issued while the writer is idle — in *every* run, throws included; and in
every run in which no `appendBuffer` call throws, chunks are submitted in
strict arrival order (the submission sequence is a subsequence of the
arrival sequence).  When a direct append throws, its chunk is queued and a
later chunk appended while the writer is idle can overtake it. -/
theorem c2_order_no_overlap (tr : List FEv) :
    (tr.all noThrow = true →
      List.Sublist (frun finit tr).submitted (frun finit tr).arrived)
    ∧ wfEnd true (frun finit tr).actions = some (!(frun finit tr).updating) := by
  constructor
  · intro hall
    have h := ford_frun tr finit hall ford_init
    exact List.Sublist.trans (List.sublist_append_left _ _) h.1
  · exact fwf_frun tr finit fwf_init

/-- C2 witness: a throw-free run with a queued chunk drained by the flush —
order preserved and the append/updateend log alternates. -/
theorem c2_order_no_overlap_witness :
    List.Sublist
        (frun finit [FEv.sourceopen true, FEv.arrive 1 false, FEv.arrive 2 false,
          FEv.updateend false]).submitted
        (frun finit [FEv.sourceopen true, FEv.arrive 1 false, FEv.arrive 2 false,
          FEv.updateend false]).arrived
    ∧ wfEnd true (frun finit [FEv.sourceopen true, FEv.arrive 1 false,
          FEv.arrive 2 false, FEv.updateend false]).actions
        = some (!(frun finit [FEv.sourceopen true, FEv.arrive 1 false,
          FEv.arrive 2 false, FEv.updateend false]).updating) :=
  ⟨(c2_order_no_overlap [FEv.sourceopen true, FEv.arrive 1 false, FEv.arrive 2 false,
      FEv.updateend false]).1 (by decide),
   (c2_order_no_overlap [FEv.sourceopen true, FEv.arrive 1 false, FEv.arrive 2 false,
      FEv.updateend false]).2⟩

/-! ## Playback readiness gate -/

theorem ginv_init : GInv ginit := by
  constructor
  · intro h
    cases h
  · intro h
    cases h

theorem ginv_step (s : Gate) (e : GEv) (h : GInv s) : GInv (gstep s e) := by
  obtain ⟨hm, hr⟩ := h
  cases e with
  | chunk t => exact ⟨fun _ => rfl, fun _ => rfl⟩
  | observe t =>
      simp only [gstep]
      split
      · exact ⟨hm, hr⟩
      · rename_i hc
        have hf : s.hasFirstChunk = true := by
          revert hc; cases s.hasFirstChunk <;> simp
        exact ⟨fun _ => hf, fun hx => hr hx⟩
  | poll t sb buf =>
      simp only [gstep]
      split
      · exact ⟨hm, hr⟩
      · split
        · exact ⟨hm, hr⟩
        · split
          · rename_i h1 h2 h3
            have hmon : s.monitoring = true := by
              revert h1; cases s.monitoring <;> simp
            exact ⟨fun _ => hm hmon, fun _ => hm hmon⟩
          · exact ⟨hm, hr⟩
  | deadline => exact ⟨hm, hr⟩

theorem ginv_run (tr : List GEv) : ∀ s, GInv s → GInv (grun s tr) := by
  induction tr with
  | nil => intro s h; exact h
  | cons e rest ih =>
      intro s h
      exact ih (gstep s e) (ginv_step s e h)

/-- C5 counterexample: the first chunk arrived at t=0 and was observed, yet
at the readiness poll at t=2000 — a full second past the 1-second
elapsed-time ceiling — the promise is neither resolved nor rejected,
because `tryStartPlayback` returns early while the `sourceBuffer` is null
(creation failed); the claim's "resolves … when 1 second has elapsed since
the first chunk, whichever comes first" is violated. -/
theorem c5_counterexample :
    (grun ginit [GEv.chunk 0, GEv.observe 0, GEv.poll 2000 false 0]).hasFirstChunk
        = true
    ∧ firstChunkWaitMs
        < 2000 - (grun ginit [GEv.chunk 0, GEv.observe 0,
            GEv.poll 2000 false 0]).startTime
    ∧ (grun ginit [GEv.chunk 0, GEv.observe 0, GEv.poll 2000 false 0]).resolved
        = false
    ∧ (grun ginit [GEv.chunk 0, GEv.observe 0, GEv.poll 2000 false 0]).rejected
        = false := by
  refine ⟨?_, ?_, ?_, ?_⟩ <;> decide

/-- C5 (amended): the readiness promise never resolves before the first
chunk arrives; *provided the writer sub-resource exists*, any readiness poll
resolves it as soon as the buffered duration exceeds the 1-second floor or
1 second has elapsed since the first chunk was observed, whichever comes
first; a poll while the writer does not exist never resolves it (so the
promise can stay unsettled); and if no chunk has arrived when the 10-second
deadline fires, the operation rejects with the stream-timeout error. -/
theorem c5_readiness_gate :
    (∀ tr : List GEv, (grun ginit tr).resolved = true →
        (grun ginit tr).hasFirstChunk = true)
    ∧ (∀ (s : Gate) (t buf : Nat), s.monitoring = true → s.resolved = false →
        hasEnoughBuffer buf (t - s.startTime) = true →
        (gstep s (GEv.poll t true buf)).resolved = true)
    ∧ (∀ s : Gate, s.hasFirstChunk = false →
        (gstep s GEv.deadline).rejected = true)
    ∧ (∀ (s : Gate) (t buf : Nat),
        (gstep s (GEv.poll t false buf)).resolved = s.resolved) := by
  refine ⟨?_, ?_, ?_, ?_⟩
  · intro tr h
    exact (ginv_run tr ginit ginv_init).2 h
  · intro s t buf hm hr he
    simp [gstep, hm, hr, he]
  · intro s h
    simp [gstep, h]
  · intro s t buf
    simp only [gstep]
    split
    · rfl
    · rfl

/-- C5 witness: a run where the first chunk was observed at t=5 and the
writer exists — the poll at t=2000 resolves; and with no chunk at all, the
deadline rejects. -/
theorem c5_readiness_gate_witness :
    (gstep (grun ginit [GEv.chunk 0, GEv.observe 5]) (GEv.poll 2000 true 0)).resolved
        = true
    ∧ (gstep ginit GEv.deadline).rejected = true :=
  ⟨c5_readiness_gate.2.1 (grun ginit [GEv.chunk 0, GEv.observe 5]) 2000 0
      (by decide) (by decide) (by decide),
   c5_readiness_gate.2.2.1 ginit (by decide)⟩

end FindShop
